import Mathlib

/-!
# Alert store: the two request handlers of `main.go`

A shallow embedding of `Server.WriteAlert`, `Server.ReadAlerts` and
`Server.writeDataToFile`, with the in-memory store they act on.

Modelling conventions.

* A Go `string` is a finite sequence of bytes; `==` is equality of the byte sequences and
  `<=` / `>=` compare them lexicographically byte by byte.
* A Go `map[string]V` is a finite map with unique keys: an association list without
  duplicate keys (`AList`).  `m[k]` with the comma-ok form is `AList.lookup`, the
  assignment `m[k] = v` is `AList.insert`.
* A handler receives the store by explicit state passing and returns the new store together
  with the calls it made on its `http.ResponseWriter`, in order.
* What the handlers obtain from their surroundings (the outcome of decoding the request
  body, of `os.Create`, of `Encoder.Encode`, of `w.Write`) is given as an argument.
* The `sync.RWMutex` is not part of the sequential model.
-/

namespace AlertServer

/-- A Go string: a sequence of bytes. -/
abbrev GoString := List (Fin 256)

/-- The bytes of a text made of ASCII characters. -/
def ascii (s : String) : GoString := s.toList.map (fun c => Fin.ofNat c.toNat)

/-- Go `a <= b` on strings: lexicographic comparison of the bytes. -/
def strLe : GoString → GoString → Bool
  | [], _ => true
  | _ :: _, [] => false
  | a :: as, b :: bs => if a < b then true else if b < a then false else strLe as bs

/-- Go `a >= b` on strings. -/
def strGe (a b : GoString) : Bool := strLe b a

/-- The struct `Result`; the nil `error` is `none`. -/
structure Result where
  AlertID : GoString
  Err : Option GoString
  deriving DecidableEq, Repr

/-- The struct `ReqData`, the decoded body of a write request. -/
structure ReqData where
  AlertID : GoString
  ServiceID : GoString
  ServiceName : GoString
  Model : GoString
  AlertType : GoString
  AlertTS : GoString
  Severity : GoString
  TeamSlack : GoString
  deriving DecidableEq, Repr

/-- The struct `Data`, a service record. -/
structure Data where
  ServiceID : GoString
  ServiceName : GoString
  deriving DecidableEq, Repr

/-- The struct `Alerts`, one alert record. -/
structure Alerts where
  AlertID : GoString
  Model : GoString
  AlertType : GoString
  AlertTs : GoString
  Severity : GoString
  TeamSlack : GoString
  ServiceID : GoString
  deriving DecidableEq, Repr

/-- The struct `InMemoryDataStore`, its two maps.  The field `File` is never assigned or read
by the handlers and the field `FileMux` is the lock; neither is part of the model. -/
structure InMemoryDataStore where
  Data : AList (fun _ : GoString => AlertServer.Data)
  Alerts : AList (fun _ : GoString => List AlertServer.Alerts)
  deriving DecidableEq

/-- The struct `Server`. -/
structure Server where
  DataStore : InMemoryDataStore
  deriving DecidableEq

/-- `NewServer`: both maps are created empty. -/
def NewServer : Server :=
  { DataStore := { Data := ∅, Alerts := ∅ } }

/-- What is handed to `w.Write`. -/
inductive Payload where
  /-- The text that `http.Error` prints, followed by a newline. -/
  | line (msg : GoString)
  /-- The bytes `json.Marshal` gives for a `Result`. -/
  | json (r : Result)
  deriving DecidableEq, Repr

/-- A call on the `http.ResponseWriter`. -/
inductive WCall where
  | WriteHeader (code : Nat)
  | Write (p : Payload)
  deriving DecidableEq, Repr

def StatusOK : Nat := 200
def StatusBadRequest : Nat := 400
def StatusNotFound : Nat := 404
def StatusInternalServerError : Nat := 500

/-- `http.Error(w, msg, code)`: after the calls made so far, `WriteHeader(code)` and the
message printed as one line.  The header fields it sets are not part of the model. -/
def httpError (w : List WCall) (msg : GoString) (code : Nat) : List WCall :=
  w ++ [WCall.WriteHeader code, WCall.Write (Payload.line msg)]

/-- The surroundings of one write request. -/
structure WriteEnv where
  /-- The error of `os.Create("data.json")`, if any. -/
  createErr : Option GoString
  /-- The error of `encoder.Encode(s.DataStore)`, if any. -/
  encodeErr : Option GoString
  /-- The error of `w.Write(jsonResult)`, if any. -/
  respWriteErr : Option GoString
  deriving DecidableEq, Repr

/-- `writeDataToFile`: the error it returns, `none` for nil.  A failing `os.Create` returns
before the encoder runs; otherwise the error of `Encode` is returned.  The content of the
file is not part of the model. -/
def writeDataToFile (_s : Server) (env : WriteEnv) : Option GoString :=
  match env.createErr with
  | some err => some err
  | none =>
    match env.encodeErr with
    | some err => some err
    | none => none

/-- The alert record `WriteAlert` builds from the request. -/
def alertOf (data : ReqData) : Alerts :=
  { AlertID := data.AlertID
    Model := data.Model
    AlertType := data.AlertType
    AlertTs := data.AlertTS
    Severity := data.Severity
    TeamSlack := data.TeamSlack
    ServiceID := data.ServiceID }

/-- The two map updates of `WriteAlert`. -/
def saveInMemory (s : Server) (data : ReqData) : Server :=
  let d : InMemoryDataStore :=
    { s.DataStore with
      Data := s.DataStore.Data.insert data.ServiceID
        { ServiceID := data.ServiceID, ServiceName := data.ServiceName } }
  let d : InMemoryDataStore :=
    { d with
      Alerts := d.Alerts.insert data.ServiceID
        (((d.Alerts.lookup data.ServiceID).getD []) ++ [alertOf data]) }
  { s with DataStore := d }

/-- `Server.WriteAlert`.  `body` is the outcome of `decoder.Decode(&data)`. -/
def WriteAlert (s : Server) (env : WriteEnv) (body : Except GoString ReqData) :
    Server × List WCall :=
  match body with
  | Except.error err => (s, httpError [] err StatusBadRequest)
  | Except.ok data =>
    let s := saveInMemory s data
    match writeDataToFile s env with
    | some err => (s, httpError [] err StatusInternalServerError)
    | none =>
      let result : Result := { AlertID := data.AlertID, Err := none }
      let w := [WCall.WriteHeader StatusOK, WCall.Write (Payload.json result)]
      match env.respWriteErr with
      | some err => (s, httpError w err StatusInternalServerError)
      | none => (s, w)

/-- The filtering loop of `ReadAlerts`: `acc` is `filteredAlerts` so far. -/
def filterLoop (alertTS alertEndTS : GoString) : List Alerts → List Alerts → List Alerts
  | acc, [] => acc
  | acc, alert :: rest =>
    if strGe alert.AlertTs alertTS && strLe alert.AlertTs alertEndTS then
      filterLoop alertTS alertEndTS (acc ++ [alert]) rest
    else
      filterLoop alertTS alertEndTS acc rest

/-- The value of `filteredAlerts` after the loop of `ReadAlerts`. -/
def filteredAlerts (alerts : List Alerts) (alertTS alertEndTS : GoString) : List Alerts :=
  filterLoop alertTS alertEndTS [] alerts

/-- `Server.ReadAlerts`.  The three strings are the URL parameters, `respWriteErr` is the
error of `w.Write(jsonResult)`, if any.  The store is only read. -/
def ReadAlerts (s : Server) (respWriteErr : Option GoString)
    (serviceID alertTS alertEndTS : GoString) : List WCall :=
  match s.DataStore.Alerts.lookup serviceID with
  | none => httpError [] (ascii "Service not found") StatusNotFound
  | some alerts =>
    match filteredAlerts alerts alertTS alertEndTS with
    | [] => httpError [] (ascii "No alerts found in the specified time range") StatusNotFound
    | first :: _ =>
      let result : Result := { AlertID := first.AlertID, Err := none }
      let w := [WCall.WriteHeader StatusOK, WCall.Write (Payload.json result)]
      match respWriteErr with
      | some err => httpError w err StatusInternalServerError
      | none => w

/-- The range test as the specification words it: `startTS <= a.alertTimestamp <= endTS`,
both bounds included. -/
def inRange (startTS endTS : GoString) (a : Alerts) : Bool :=
  strLe startTS a.AlertTs && strLe a.AlertTs endTS

/-- The calls of a handler that answers 200 with the given alert ID and a nil error. -/
def okResponse (alertID : GoString) : List WCall :=
  [WCall.WriteHeader StatusOK, WCall.Write (Payload.json { AlertID := alertID, Err := none })]

/-- One request to the server, with what its handler obtains from the surroundings. -/
inductive Request where
  | write (env : WriteEnv) (body : Except GoString ReqData)
  | read (respWriteErr : Option GoString) (serviceID alertTS alertEndTS : GoString)

/-- The store after one request has been handled. -/
def serve (s : Server) : Request → Server
  | Request.write env body => (WriteAlert s env body).1
  | Request.read _ _ _ _ => s

/-- The store after a sequence of requests, handled one after the other. -/
def serveAll (s : Server) (rs : List Request) : Server :=
  rs.foldl serve s

/-- The store after a sequence of submissions (decoded bodies), one after the other. -/
def submitAll (s : Server) (subs : List (WriteEnv × ReqData)) : Server :=
  subs.foldl (fun s p => (WriteAlert s p.1 (Except.ok p.2)).1) s

/-- Every key of `Alerts` is a key of `Data`, and the record under it carries that key. -/
def Consistent (s : Server) : Prop :=
  ∀ id ∈ s.DataStore.Alerts.keys,
    (s.DataStore.Data.lookup id).map Data.ServiceID = some id

instance (s : Server) : Decidable (Consistent s) := by
  unfold Consistent
  infer_instance

/-! ### Sample inputs -/

def envOk : WriteEnv := { createErr := none, encodeErr := none, respWriteErr := none }

def envDiskFull : WriteEnv :=
  { createErr := none, encodeErr := some (ascii "no space left on device"),
    respWriteErr := none }

def req1 : ReqData :=
  { AlertID := ascii "A1", ServiceID := ascii "svc1", ServiceName := ascii "Svc One",
    Model := ascii "M", AlertType := ascii "Critical",
    AlertTS := ascii "2024-01-01T00:00:00Z", Severity := ascii "High",
    TeamSlack := ascii "team1" }

def req2 : ReqData :=
  { AlertID := ascii "A2", ServiceID := ascii "svc1", ServiceName := ascii "Svc Uno",
    Model := ascii "M", AlertType := ascii "Warning",
    AlertTS := ascii "2024-01-05T12:30:00Z", Severity := ascii "Low",
    TeamSlack := ascii "team1" }

def req3 : ReqData :=
  { AlertID := ascii "B1", ServiceID := ascii "svc2", ServiceName := ascii "Svc Two",
    Model := ascii "N", AlertType := ascii "Critical",
    AlertTS := ascii "2024-01-03T08:00:00Z", Severity := ascii "High",
    TeamSlack := ascii "team2" }

/-- The store after `req1`, `req2`, `req3` were submitted to a new server. -/
def srv3 : Server :=
  submitAll NewServer [(envOk, req1), (envOk, req2), (envOk, req3)]

end AlertServer

namespace AlertServer

/-! ### The string order -/

theorem strLe_refl (a : GoString) : strLe a a = true := by
  induction a with
  | nil => rfl
  | cons x xs ih => simp [strLe, ih]

theorem strLe_total (a b : GoString) : strLe a b = true ∨ strLe b a = true := by
  induction a generalizing b with
  | nil => left; rfl
  | cons x xs ih =>
    cases b with
    | nil => right; rfl
    | cons y ys =>
      rcases lt_trichotomy x y with h | h | h
      · left; simp [strLe, h]
      · subst h; simpa [strLe] using ih ys
      · right; simp [strLe, h]

theorem strLe_antisymm (a b : GoString) (hab : strLe a b = true) (hba : strLe b a = true) :
    a = b := by
  induction a generalizing b with
  | nil =>
    cases b with
    | nil => rfl
    | cons y ys => simp [strLe] at hba
  | cons x xs ih =>
    cases b with
    | nil => simp [strLe] at hab
    | cons y ys =>
      rcases lt_trichotomy x y with h | h | h
      · simp [strLe, h, lt_asymm h] at hba
      · subst h
        simp [strLe] at hab hba
        rw [ih ys hab hba]
      · simp [strLe, h, lt_asymm h] at hab

theorem strLe_trans (a b c : GoString) (hab : strLe a b = true) (hbc : strLe b c = true) :
    strLe a c = true := by
  induction a generalizing b c with
  | nil => rfl
  | cons x xs ih =>
    cases b with
    | nil => simp [strLe] at hab
    | cons y ys =>
      cases c with
      | nil => simp [strLe] at hbc
      | cons z zs =>
        rcases lt_trichotomy x y with h | h | h
        · rcases lt_trichotomy y z with h' | h' | h'
          · simp [strLe, lt_trans h h']
          · subst h'; simp [strLe, h]
          · simp [strLe, h', lt_asymm h'] at hbc
        · subst h
          rcases lt_trichotomy x z with h' | h' | h'
          · simp [strLe, h']
          · subst h'
            simp [strLe] at hab hbc ⊢
            exact ih ys zs hab hbc
          · simp [strLe, h', lt_asymm h'] at hbc
        · simp [strLe, h, lt_asymm h] at hab

/-- `strLe` is the lexicographic order of the byte sequences. -/
theorem strLe_iff_lex (a b : GoString) :
    strLe a b = true ↔ a = b ∨ List.Lex (fun x y : Fin 256 => x < y) a b := by
  induction a generalizing b with
  | nil =>
    cases b with
    | nil => simp [strLe]
    | cons y ys => simp [strLe, List.Lex.nil]
  | cons x xs ih =>
    cases b with
    | nil =>
      simp only [strLe, Bool.false_eq_true, false_iff, not_or]
      exact ⟨by simp, fun h => by cases h⟩
    | cons y ys =>
      rcases lt_trichotomy x y with h | h | h
      · simp only [strLe, h, if_true, true_iff]
        exact Or.inr (List.Lex.rel h)
      · subst h
        simp only [strLe, lt_irrefl, if_false, ih ys, List.cons.injEq, true_and]
        constructor
        · rintro (h | h)
          · exact Or.inl h
          · exact Or.inr (List.Lex.cons h)
        · rintro (h | h)
          · exact Or.inl h
          · cases h with
            | cons h => exact Or.inr h
            | rel h => exact absurd h (lt_irrefl _)
      · simp only [strLe, lt_asymm h, h, if_false, if_true, Bool.false_eq_true, false_iff,
          not_or]
        refine ⟨fun e => ?_, fun l => ?_⟩
        · injection e with e1 _
          exact absurd (e1 ▸ h) (lt_irrefl _)
        · cases l with
          | cons l => exact lt_irrefl _ h
          | rel l => exact lt_asymm h l

end AlertServer

namespace AlertServer

/-! ### Reading -/

theorem filterLoop_eq (startTS endTS : GoString) (acc alerts : List Alerts) :
    filterLoop startTS endTS acc alerts = acc ++ alerts.filter (inRange startTS endTS) := by
  induction alerts generalizing acc with
  | nil => simp [filterLoop]
  | cons a rest ih =>
    by_cases h : inRange startTS endTS a = true
    · have h' : (strGe a.AlertTs startTS && strLe a.AlertTs endTS) = true := h
      simp [filterLoop, h', h, ih]
    · have h' : ¬ (strGe a.AlertTs startTS && strLe a.AlertTs endTS) = true := h
      simp [filterLoop, h', h, ih]

theorem filteredAlerts_eq (alerts : List Alerts) (startTS endTS : GoString) :
    filteredAlerts alerts startTS endTS = alerts.filter (inRange startTS endTS) := by
  simp [filteredAlerts, filterLoop_eq]

theorem filter_eq_nil_of_none (alerts : List Alerts) (startTS endTS : GoString)
    (h : ∀ a ∈ alerts, inRange startTS endTS a = false) :
    alerts.filter (inRange startTS endTS) = [] := by
  rw [List.filter_eq_nil_iff]
  intro a ha
  simp [h a ha]

theorem filter_head_of_some (alerts : List Alerts) (startTS endTS : GoString)
    (h : ∃ a ∈ alerts, inRange startTS endTS a = true) :
    ∃ first rest, alerts.find? (inRange startTS endTS) = some first ∧
      alerts.filter (inRange startTS endTS) = first :: rest := by
  induction alerts with
  | nil => simp at h
  | cons a as ih =>
    by_cases ha : inRange startTS endTS a = true
    · exact ⟨a, as.filter (inRange startTS endTS), by simp [ha], by simp [ha]⟩
    · have h' : ∃ b ∈ as, inRange startTS endTS b = true := by
        obtain ⟨b, hb, hr⟩ := h
        rcases List.mem_cons.mp hb with e | hb'
        · exact absurd (e ▸ hr) ha
        · exact ⟨b, hb', hr⟩
      obtain ⟨first, rest, h1, h2⟩ := ih h'
      exact ⟨first, rest, by simp [ha, h1], by simp [ha, h2]⟩

/-- C1. For every store, every serviceID that is a key of `Alerts` and every pair of strings
`startTS`, `endTS`: the sequence the loop of `ReadAlerts` leaves in `filteredAlerts` is the
stored list of that service filtered by `startTS <= a.AlertTs <= endTS` (byte-wise
lexicographic comparison, both bounds included). It keeps the stored relative order, it has no
alert outside the range, and it drops none inside it. -/
theorem readAlerts_selects_range (s : Server) (serviceID startTS endTS : GoString)
    (alerts : List Alerts) (h : s.DataStore.Alerts.lookup serviceID = some alerts) :
    (∀ w, ReadAlerts s w serviceID startTS endTS =
      match filteredAlerts alerts startTS endTS with
      | [] => httpError [] (ascii "No alerts found in the specified time range") StatusNotFound
      | first :: _ =>
        match w with
        | some err => httpError (okResponse first.AlertID) err StatusInternalServerError
        | none => okResponse first.AlertID) ∧
    filteredAlerts alerts startTS endTS =
      alerts.filter (fun a => strLe startTS a.AlertTs && strLe a.AlertTs endTS) ∧
    (filteredAlerts alerts startTS endTS).Sublist alerts ∧
    (∀ a, a ∈ filteredAlerts alerts startTS endTS ↔
      a ∈ alerts ∧ strLe startTS a.AlertTs = true ∧ strLe a.AlertTs endTS = true) ∧
    (∀ a, List.count a (filteredAlerts alerts startTS endTS) =
      if strLe startTS a.AlertTs = true ∧ strLe a.AlertTs endTS = true
      then List.count a alerts else 0) := by
  have hf := filteredAlerts_eq alerts startTS endTS
  refine ⟨fun w => ?_, hf, ?_, fun a => ?_, fun a => ?_⟩
  · simp only [ReadAlerts, h]
    cases filteredAlerts alerts startTS endTS with
    | nil => rfl
    | cons first rest => cases w <;> rfl
  · rw [hf]; exact List.filter_sublist alerts
  · rw [hf]; simp [inRange, List.mem_filter]
  · rw [hf]
    by_cases hr : inRange startTS endTS a = true
    · have hr' : strLe startTS a.AlertTs = true ∧ strLe a.AlertTs endTS = true := by
        simpa [inRange] using hr
      rw [List.count_filter hr, if_pos hr']
    · have hr' : ¬ (strLe startTS a.AlertTs = true ∧ strLe a.AlertTs endTS = true) := by
        simpa [inRange] using hr
      rw [if_neg hr', List.count_eq_zero]
      intro hm
      exact hr (List.mem_filter.mp hm).2

/-- C1, at the store `srv3`: of the two alerts of `svc1` the range up to 3 January selects
the first only; the range starting at the first timestamp and ending at the second selects
both, in stored order. -/
theorem readAlerts_selects_range_witness :
    filteredAlerts [alertOf req1, alertOf req2] (ascii "2023-12-31T00:00:00Z")
        (ascii "2024-01-03T00:00:00Z") = [alertOf req1] ∧
      filteredAlerts [alertOf req1, alertOf req2] (ascii "2024-01-01T00:00:00Z")
        (ascii "2024-01-05T12:30:00Z") = [alertOf req1, alertOf req2] :=
  ⟨((readAlerts_selects_range srv3 (ascii "svc1") (ascii "2023-12-31T00:00:00Z")
      (ascii "2024-01-03T00:00:00Z") [alertOf req1, alertOf req2] (by decide)).2.1).trans
        (by decide),
   ((readAlerts_selects_range srv3 (ascii "svc1") (ascii "2024-01-01T00:00:00Z")
      (ascii "2024-01-05T12:30:00Z") [alertOf req1, alertOf req2] (by decide)).2.1).trans
        (by decide)⟩

/-- C3. For every store and every serviceID that is not a key of `Alerts`, `ReadAlerts`
answers 404 with the text "Service not found", for every start and end timestamp and whatever
else the store holds. Its answer is not the one for an empty selection, has no 200 status and
writes no result. -/
theorem readAlerts_unknown_service (s : Server) (w : Option GoString)
    (serviceID startTS endTS : GoString) (h : serviceID ∉ s.DataStore.Alerts) :
    ReadAlerts s w serviceID startTS endTS =
      [WCall.WriteHeader 404, WCall.Write (Payload.line (ascii "Service not found"))] ∧
    ReadAlerts s w serviceID startTS endTS ≠
      [WCall.WriteHeader 404,
        WCall.Write (Payload.line (ascii "No alerts found in the specified time range"))] ∧
    WCall.WriteHeader 200 ∉ ReadAlerts s w serviceID startTS endTS ∧
    ∀ r, WCall.Write (Payload.json r) ∉ ReadAlerts s w serviceID startTS endTS := by
  have hl : s.DataStore.Alerts.lookup serviceID = none := AList.lookup_eq_none.mpr h
  have hr : ReadAlerts s w serviceID startTS endTS =
      [WCall.WriteHeader 404, WCall.Write (Payload.line (ascii "Service not found"))] := by
    simp only [ReadAlerts, hl]
    rfl
  rw [hr]
  refine ⟨rfl, by decide, by decide, fun r => ?_⟩
  simp

/-- C3, at the store `srv3`, which holds `svc1` and `svc2` but not `svc9`. -/
theorem readAlerts_unknown_service_witness :
    ReadAlerts srv3 none (ascii "svc9") (ascii "2023-12-31T00:00:00Z")
        (ascii "2024-01-02T00:00:00Z") =
      [WCall.WriteHeader 404, WCall.Write (Payload.line (ascii "Service not found"))] :=
  (readAlerts_unknown_service srv3 none (ascii "svc9") (ascii "2023-12-31T00:00:00Z")
    (ascii "2024-01-02T00:00:00Z") (by decide)).1

/-- C4. For every store, every serviceID that is a key of `Alerts` and every `startTS`,
`endTS`: if no stored alert of the service has `startTS <= AlertTs <= endTS`, `ReadAlerts`
answers 404 with the text "No alerts found in the specified time range"; if at least one
has, it answers 200 with a result whose error is nil, and these two calls are all it makes
when the write of the result does not fail. -/
theorem readAlerts_no_alerts_in_range (s : Server) (w : Option GoString)
    (serviceID startTS endTS : GoString) (alerts : List Alerts)
    (h : s.DataStore.Alerts.lookup serviceID = some alerts) :
    ((∀ a ∈ alerts, ¬ (strLe startTS a.AlertTs = true ∧ strLe a.AlertTs endTS = true)) →
      ReadAlerts s w serviceID startTS endTS =
        [WCall.WriteHeader 404,
          WCall.Write (Payload.line (ascii "No alerts found in the specified time range"))]) ∧
    ((∃ a ∈ alerts, strLe startTS a.AlertTs = true ∧ strLe a.AlertTs endTS = true) →
      ∃ alertID,
        (ReadAlerts s w serviceID startTS endTS).take 2 =
          [WCall.WriteHeader 200, WCall.Write (Payload.json ⟨alertID, none⟩)] ∧
        (w = none → ReadAlerts s w serviceID startTS endTS =
          [WCall.WriteHeader 200, WCall.Write (Payload.json ⟨alertID, none⟩)])) := by
  constructor
  · intro hnone
    have hnil : filteredAlerts alerts startTS endTS = [] := by
      rw [filteredAlerts_eq]
      apply filter_eq_nil_of_none
      intro a ha
      have := hnone a ha
      simpa [inRange] using this
    simp only [ReadAlerts, h, hnil]
    rfl
  · rintro ⟨a, ha, hr⟩
    obtain ⟨first, rest, _, hcons⟩ :=
      filter_head_of_some alerts startTS endTS ⟨a, ha, by simpa [inRange] using hr⟩
    rw [← filteredAlerts_eq] at hcons
    refine ⟨first.AlertID, ?_, ?_⟩
    · simp only [ReadAlerts, h, hcons]
      cases w <;> rfl
    · intro hw
      subst hw
      simp only [ReadAlerts, h, hcons]
      rfl

/-- C4, at the store `srv3`: February holds no alert of `svc1`, the first days of January
hold one. -/
theorem readAlerts_no_alerts_in_range_witness :
    ReadAlerts srv3 none (ascii "svc1") (ascii "2024-02-01T00:00:00Z")
        (ascii "2024-03-01T00:00:00Z") =
      [WCall.WriteHeader 404,
        WCall.Write (Payload.line (ascii "No alerts found in the specified time range"))] ∧
    ∃ alertID,
      (ReadAlerts srv3 none (ascii "svc1") (ascii "2023-12-31T00:00:00Z")
          (ascii "2024-01-02T00:00:00Z")).take 2 =
        [WCall.WriteHeader 200, WCall.Write (Payload.json ⟨alertID, none⟩)] ∧
      ((none : Option GoString) = none →
        ReadAlerts srv3 none (ascii "svc1") (ascii "2023-12-31T00:00:00Z")
          (ascii "2024-01-02T00:00:00Z") =
        [WCall.WriteHeader 200, WCall.Write (Payload.json ⟨alertID, none⟩)]) :=
  ⟨(readAlerts_no_alerts_in_range srv3 none (ascii "svc1") (ascii "2024-02-01T00:00:00Z")
      (ascii "2024-03-01T00:00:00Z") [alertOf req1, alertOf req2] (by decide)).1 (by decide),
   (readAlerts_no_alerts_in_range srv3 none (ascii "svc1") (ascii "2023-12-31T00:00:00Z")
      (ascii "2024-01-02T00:00:00Z") [alertOf req1, alertOf req2] (by decide)).2
      ⟨alertOf req1, by decide, by decide⟩⟩

/-- C9. For every store, serviceID, `startTS` and `endTS` for which at least one stored alert
of the service lies in the range, `ReadAlerts` answers 200 with the result
`{AlertID: first.AlertID, Err: nil}`, where `first` is the earliest stored alert of the
service lying in the range, the head of the filtered sequence. The result holds that one ID
and nothing of the other matching alerts. With a single stored alert, lying in the range,
the answer carries that alert's ID. -/
theorem readAlerts_returns_first_match (s : Server) (w : Option GoString)
    (serviceID startTS endTS : GoString) (alerts : List Alerts)
    (h : s.DataStore.Alerts.lookup serviceID = some alerts)
    (hex : ∃ a ∈ alerts, strLe startTS a.AlertTs = true ∧ strLe a.AlertTs endTS = true) :
    (∃ first,
      alerts.find? (fun a => strLe startTS a.AlertTs && strLe a.AlertTs endTS) = some first ∧
      (filteredAlerts alerts startTS endTS).head? = some first ∧
      (ReadAlerts s w serviceID startTS endTS).take 2 =
        [WCall.WriteHeader 200, WCall.Write (Payload.json ⟨first.AlertID, none⟩)] ∧
      (w = none → ReadAlerts s w serviceID startTS endTS =
        [WCall.WriteHeader 200, WCall.Write (Payload.json ⟨first.AlertID, none⟩)])) ∧
    (∀ a, alerts = [a] → (ReadAlerts s w serviceID startTS endTS).take 2 =
        [WCall.WriteHeader 200, WCall.Write (Payload.json ⟨a.AlertID, none⟩)]) := by
  obtain ⟨a, ha, hr⟩ := hex
  obtain ⟨first, rest, hfind, hcons⟩ :=
    filter_head_of_some alerts startTS endTS ⟨a, ha, by simpa [inRange] using hr⟩
  have hcons' := hcons
  rw [← filteredAlerts_eq] at hcons'
  have htake : (ReadAlerts s w serviceID startTS endTS).take 2 =
      [WCall.WriteHeader 200, WCall.Write (Payload.json ⟨first.AlertID, none⟩)] := by
    simp only [ReadAlerts, h, hcons']
    cases w <;> rfl
  refine ⟨⟨first, hfind, by rw [hcons']; rfl, htake, ?_⟩, ?_⟩
  · intro hw
    subst hw
    simp only [ReadAlerts, h, hcons']
    rfl
  · intro b hb
    subst hb
    have hab : a = b := by simpa using ha
    subst hab
    have hin : inRange startTS endTS a = true := by simpa [inRange] using hr
    have : first = a := by
      simp [hin] at hcons
      exact hcons.1.symm
    rw [← this]
    exact htake

/-- C9, at the store `srv3`: both alerts of `svc1` lie in January, the answer carries the ID
of the one stored first, `A1`. -/
theorem readAlerts_returns_first_match_witness :
    ReadAlerts srv3 none (ascii "svc1") (ascii "2024-01-01T00:00:00Z")
        (ascii "2024-01-31T00:00:00Z") =
      [WCall.WriteHeader 200, WCall.Write (Payload.json ⟨ascii "A1", none⟩)] := by
  obtain ⟨first, hfind, _, _, hall⟩ :=
    (readAlerts_returns_first_match srv3 none (ascii "svc1") (ascii "2024-01-01T00:00:00Z")
      (ascii "2024-01-31T00:00:00Z") [alertOf req1, alertOf req2] (by decide)
      ⟨alertOf req2, by decide, by decide⟩).1
  have hf : first = alertOf req1 := Option.some.inj (hfind.symm.trans (by decide))
  rw [hall rfl, hf]
  rfl

/-! ### Writing -/

theorem saveInMemory_data_lookup (s : Server) (data : ReqData) (id : GoString) :
    (saveInMemory s data).DataStore.Data.lookup id =
      if id = data.ServiceID then
        some { ServiceID := data.ServiceID, ServiceName := data.ServiceName }
      else s.DataStore.Data.lookup id := by
  by_cases h : id = data.ServiceID
  · subst h
    simp [saveInMemory, AList.lookup_insert]
  · simp [saveInMemory, h, AList.lookup_insert_ne h]

theorem saveInMemory_alerts_lookup (s : Server) (data : ReqData) (id : GoString) :
    (saveInMemory s data).DataStore.Alerts.lookup id =
      if id = data.ServiceID then
        some (((s.DataStore.Alerts.lookup data.ServiceID).getD []) ++ [alertOf data])
      else s.DataStore.Alerts.lookup id := by
  by_cases h : id = data.ServiceID
  · subst h
    simp [saveInMemory, AList.lookup_insert]
  · simp [saveInMemory, h, AList.lookup_insert_ne h]

theorem writeAlert_store (s : Server) (env : WriteEnv) (data : ReqData) :
    (WriteAlert s env (Except.ok data)).1 = saveInMemory s data := by
  simp only [WriteAlert]
  cases writeDataToFile (saveInMemory s data) env with
  | some err => rfl
  | none => cases env.respWriteErr <;> rfl

theorem submitAll_cons (s : Server) (p : WriteEnv × ReqData) (subs : List (WriteEnv × ReqData)) :
    submitAll s (p :: subs) = submitAll (saveInMemory s p.2) subs := by
  simp [submitAll, writeAlert_store]

theorem submitAll_alerts_lookup (subs : List (WriteEnv × ReqData)) (s : Server)
    (id : GoString) :
    (submitAll s subs).DataStore.Alerts.lookup id =
      if ∃ p ∈ subs, p.2.ServiceID = id then
        some (((s.DataStore.Alerts.lookup id).getD []) ++
          (subs.filter (fun p => p.2.ServiceID = id)).map (fun p => alertOf p.2))
      else s.DataStore.Alerts.lookup id := by
  induction subs generalizing s with
  | nil => simp [submitAll]
  | cons p rest ih =>
    rw [submitAll_cons, ih, saveInMemory_alerts_lookup]
    by_cases hp : p.2.ServiceID = id
    · have hid : id = p.2.ServiceID := hp.symm
      have hex : ∃ q ∈ p :: rest, q.2.ServiceID = id := ⟨p, List.mem_cons_self _ _, hp⟩
      rw [if_pos hex, if_pos hid]
      subst hid
      by_cases hr : ∃ q ∈ rest, q.2.ServiceID = p.2.ServiceID
      · simp [hr, List.filter_cons]
      · have hnil : rest.filter (fun q => decide (q.2.ServiceID = p.2.ServiceID)) = [] := by
          rw [List.filter_eq_nil_iff]
          intro q hq hd
          exact hr ⟨q, hq, by simpa using hd⟩
        simp [hr, List.filter_cons, hnil]
    · have hid : ¬ id = p.2.ServiceID := fun e => hp e.symm
      rw [if_neg hid]
      by_cases hr : ∃ q ∈ rest, q.2.ServiceID = id
      · have hex : ∃ q ∈ p :: rest, q.2.ServiceID = id := by
          obtain ⟨q, hq, e⟩ := hr
          exact ⟨q, List.mem_cons_of_mem _ hq, e⟩
        simp [hr, hex, List.filter_cons, hp]
      · have hex : ¬ ∃ q ∈ p :: rest, q.2.ServiceID = id := by
          rintro ⟨q, hq, e⟩
          rcases List.mem_cons.mp hq with e' | hq'
          · exact hp (e' ▸ e)
          · exact hr ⟨q, hq', e⟩
        rw [if_neg hr, if_neg hex]

theorem saveInMemory_consistent (s : Server) (data : ReqData) (h : Consistent s) :
    Consistent (saveInMemory s data) := by
  intro id hid
  rw [saveInMemory_data_lookup]
  by_cases e : id = data.ServiceID
  · simp [e]
  · rw [if_neg e]
    apply h
    have hm : id ∈ (saveInMemory s data).DataStore.Alerts := AList.mem_keys.mpr hid
    have hm' : id ∈ s.DataStore.Alerts := by
      rw [← AList.lookup_isSome] at hm ⊢
      rw [saveInMemory_alerts_lookup, if_neg e] at hm
      exact hm
    exact AList.mem_keys.mp hm'

theorem serve_consistent (s : Server) (r : Request) (h : Consistent s) :
    Consistent (serve s r) := by
  cases r with
  | read w a b c => exact h
  | write env body =>
    cases body with
    | error err => exact h
    | ok data =>
      simp only [serve, writeAlert_store]
      exact saveInMemory_consistent s data h

theorem serveAll_consistent (rs : List Request) (s : Server) (h : Consistent s) :
    Consistent (serveAll s rs) := by
  induction rs generalizing s with
  | nil => exact h
  | cons r rest ih => exact ih (serve s r) (serve_consistent s r h)

/-- C2. For every finite sequence of submissions applied to the empty store of `NewServer`
(whatever the surroundings of each write, so in particular when every snapshot write
succeeds) and every serviceID `id`: `Alerts` has the key `id` if and only if some submission
carried `id`, and then `Alerts[id]` is the list of the alert records of the submissions
carrying `id`, in submission order. Two submissions to one serviceID are both present, the
first before the second, and a request submitted twice is stored twice. -/
theorem submissions_accumulate (subs : List (WriteEnv × ReqData)) (id : GoString) :
    (id ∈ (submitAll NewServer subs).DataStore.Alerts ↔ ∃ p ∈ subs, p.2.ServiceID = id) ∧
    ((∃ p ∈ subs, p.2.ServiceID = id) →
      (submitAll NewServer subs).DataStore.Alerts.lookup id =
        some ((subs.filter (fun p => p.2.ServiceID = id)).map (fun p => alertOf p.2))) ∧
    (∀ (e1 e2 : WriteEnv) (r1 r2 : ReqData), r1.ServiceID = r2.ServiceID →
      (submitAll NewServer [(e1, r1), (e2, r2)]).DataStore.Alerts.lookup r1.ServiceID =
        some [alertOf r1, alertOf r2]) ∧
    (∀ (e1 e2 : WriteEnv) (r : ReqData),
      (submitAll NewServer [(e1, r), (e2, r)]).DataStore.Alerts.lookup r.ServiceID =
        some [alertOf r, alertOf r]) := by
  have hnew : ∀ k : GoString, NewServer.DataStore.Alerts.lookup k = none := fun k => rfl
  refine ⟨?_, ?_, ?_, ?_⟩
  · rw [← AList.lookup_isSome, submitAll_alerts_lookup, hnew]
    by_cases h : ∃ p ∈ subs, p.2.ServiceID = id
    · simp only [if_pos h, Option.isSome_some, true_iff]
      exact h
    · simp only [if_neg h, Option.isSome_none, Bool.false_eq_true, false_iff]
      exact h
  · intro h
    rw [submitAll_alerts_lookup, hnew, if_pos h]
    simp
  · intro e1 e2 r1 r2 h12
    rw [submitAll_alerts_lookup, hnew,
      if_pos ⟨(e1, r1), List.mem_cons_self _ _, rfl⟩]
    simp [List.filter_cons, h12]
  · intro e1 e2 r
    rw [submitAll_alerts_lookup, hnew,
      if_pos ⟨(e1, r), List.mem_cons_self _ _, rfl⟩]
    simp [List.filter_cons]

/-- C2, at three submissions: `req1` and `req2` go to `svc1`, `req3` to `svc2`. -/
theorem submissions_accumulate_witness :
    srv3.DataStore.Alerts.lookup (ascii "svc1") = some [alertOf req1, alertOf req2] ∧
    (submitAll NewServer [(envOk, req1), (envOk, req2)]).DataStore.Alerts.lookup
      req1.ServiceID = some [alertOf req1, alertOf req2] :=
  ⟨((submissions_accumulate [(envOk, req1), (envOk, req2), (envOk, req3)]
      (ascii "svc1")).2.1 ⟨(envOk, req1), by decide, by decide⟩).trans (by decide),
   (submissions_accumulate [(envOk, req1), (envOk, req2)] req1.ServiceID).2.2.1
      envOk envOk req1 req2 (by decide)⟩

/-- C5. For every store and every submitted request, if the snapshot write succeeds then
`WriteAlert` answers 200 with the result `{AlertID: data.AlertID, Err: nil}`, whatever the
store held before and whatever the other fields of the request are; these two calls are all
it makes when the write of the result does not fail. -/
theorem writeAlert_returns_alertID (s : Server) (env : WriteEnv) (data : ReqData)
    (h : writeDataToFile (saveInMemory s data) env = none) :
    (WriteAlert s env (Except.ok data)).2.take 2 =
      [WCall.WriteHeader 200, WCall.Write (Payload.json ⟨data.AlertID, none⟩)] ∧
    (env.respWriteErr = none → (WriteAlert s env (Except.ok data)).2 =
      [WCall.WriteHeader 200, WCall.Write (Payload.json ⟨data.AlertID, none⟩)]) := by
  constructor
  · simp only [WriteAlert, h]
    cases env.respWriteErr <;> rfl
  · intro hw
    simp only [WriteAlert, h, hw]
    rfl

/-- C5, at the first submission of the scenario: the answer carries `A1`. -/
theorem writeAlert_returns_alertID_witness :
    (WriteAlert NewServer envOk (Except.ok req1)).2 =
      [WCall.WriteHeader 200, WCall.Write (Payload.json ⟨ascii "A1", none⟩)] :=
  (writeAlert_returns_alertID NewServer envOk req1 (by decide)).2 (by decide)

/-- C6. For every store and every submitted request, if the snapshot write fails with `err`
then `WriteAlert` answers 500 with the text of `err` and writes no result, and the store
afterwards is the one a successful submission of the same request leaves: `Data[ServiceID]`
is the submitted service record and the alert is appended to `Alerts[ServiceID]`. -/
theorem writeAlert_snapshot_failure (s : Server) (env : WriteEnv) (data : ReqData)
    (err : GoString) (h : writeDataToFile (saveInMemory s data) env = some err) :
    (WriteAlert s env (Except.ok data)).2 =
      [WCall.WriteHeader 500, WCall.Write (Payload.line err)] ∧
    (∀ r, WCall.Write (Payload.json r) ∉ (WriteAlert s env (Except.ok data)).2) ∧
    (∀ env2 : WriteEnv, writeDataToFile (saveInMemory s data) env2 = none →
      (WriteAlert s env (Except.ok data)).1 = (WriteAlert s env2 (Except.ok data)).1) ∧
    (WriteAlert s env (Except.ok data)).1.DataStore.Data.lookup data.ServiceID =
      some { ServiceID := data.ServiceID, ServiceName := data.ServiceName } ∧
    (WriteAlert s env (Except.ok data)).1.DataStore.Alerts.lookup data.ServiceID =
      some (((s.DataStore.Alerts.lookup data.ServiceID).getD []) ++ [alertOf data]) := by
  have hresp : (WriteAlert s env (Except.ok data)).2 =
      [WCall.WriteHeader 500, WCall.Write (Payload.line err)] := by
    simp only [WriteAlert, h]
    rfl
  refine ⟨hresp, fun r => ?_, fun env2 _ => ?_, ?_, ?_⟩
  · rw [hresp]; simp
  · rw [writeAlert_store, writeAlert_store]
  · rw [writeAlert_store, saveInMemory_data_lookup, if_pos rfl]
  · rw [writeAlert_store, saveInMemory_alerts_lookup, if_pos rfl]

/-- C6, at a store holding `req1`, when the write of `req2` meets a full disk: the answer
is 500 and both alerts are in the store. -/
theorem writeAlert_snapshot_failure_witness :
    (WriteAlert (submitAll NewServer [(envOk, req1)]) envDiskFull (Except.ok req2)).2 =
      [WCall.WriteHeader 500, WCall.Write (Payload.line (ascii "no space left on device"))] ∧
    (WriteAlert (submitAll NewServer [(envOk, req1)]) envDiskFull
      (Except.ok req2)).1.DataStore.Alerts.lookup req2.ServiceID =
      some [alertOf req1, alertOf req2] :=
  ⟨(writeAlert_snapshot_failure (submitAll NewServer [(envOk, req1)]) envDiskFull req2
      (ascii "no space left on device") (by decide)).1,
   ((writeAlert_snapshot_failure (submitAll NewServer [(envOk, req1)]) envDiskFull req2
      (ascii "no space left on device") (by decide)).2.2.2.2).trans (by decide)⟩

/-- C7. In every store reached from the empty store of `NewServer` by a sequence of requests
(writes whose snapshot succeeds or fails, writes whose body does not decode, reads), every
key of `Alerts` is a key of `Data` and the record stored under it carries that key as its
`ServiceID`; every single request preserves this. -/
theorem alerts_keys_have_service_record (rs : List Request) :
    (∀ id, id ∈ (serveAll NewServer rs).DataStore.Alerts →
      ∃ d, (serveAll NewServer rs).DataStore.Data.lookup id = some d ∧ d.ServiceID = id) ∧
    (∀ (s : Server) (r : Request),
      (∀ id, id ∈ s.DataStore.Alerts →
        ∃ d, s.DataStore.Data.lookup id = some d ∧ d.ServiceID = id) →
      ∀ id, id ∈ (serve s r).DataStore.Alerts →
        ∃ d, (serve s r).DataStore.Data.lookup id = some d ∧ d.ServiceID = id) := by
  have key : ∀ t : Server, Consistent t ↔
      ∀ id, id ∈ t.DataStore.Alerts →
        ∃ d, t.DataStore.Data.lookup id = some d ∧ d.ServiceID = id := by
    intro t
    simp only [Consistent, Option.map_eq_some', AList.mem_keys]
  constructor
  · rw [← key]
    apply serveAll_consistent
    intro id hid
    simp [NewServer] at hid
  · intro s r hs
    rw [← key] at hs ⊢
    exact serve_consistent s r hs

/-- C7, at the store `srv3` and a write of `req2` that meets a full disk. -/
theorem alerts_keys_have_service_record_witness :
    ∀ id, id ∈ (serve srv3 (Request.write envDiskFull (Except.ok req2))).DataStore.Alerts →
      ∃ d, (serve srv3 (Request.write envDiskFull (Except.ok req2))).DataStore.Data.lookup id
        = some d ∧ d.ServiceID = id :=
  (alerts_keys_have_service_record []).2 srv3 (Request.write envDiskFull (Except.ok req2))
    (fun id hid => by
      have hc : Consistent srv3 := by decide
      have := hc id (AList.mem_keys.mp hid)
      simpa [Option.map_eq_some'] using this)

/-- C8. For every store and every submission with serviceID `sid` and serviceName `n`, after
`WriteAlert` (whatever the outcome of the snapshot write) `Data[sid]` is
`{ServiceID: sid, ServiceName: n}` whatever was stored under `sid` before, the entries of
`Data` under the key `sid` are that one record and no other, and the entries of all other
serviceIDs are as before. -/
theorem service_record_last_writer_wins (s : Server) (env : WriteEnv) (data : ReqData) :
    (WriteAlert s env (Except.ok data)).1.DataStore.Data.lookup data.ServiceID =
      some { ServiceID := data.ServiceID, ServiceName := data.ServiceName } ∧
    (WriteAlert s env (Except.ok data)).1.DataStore.Data.entries.filter
        (fun e => e.1 = data.ServiceID) =
      [⟨data.ServiceID, { ServiceID := data.ServiceID, ServiceName := data.ServiceName }⟩] ∧
    (∀ id, id ≠ data.ServiceID →
      (WriteAlert s env (Except.ok data)).1.DataStore.Data.lookup id =
        s.DataStore.Data.lookup id) := by
  rw [writeAlert_store]
  refine ⟨?_, ?_, ?_⟩
  · rw [saveInMemory_data_lookup, if_pos rfl]
  · have hent : (saveInMemory s data).DataStore.Data.entries =
        ⟨data.ServiceID, { ServiceID := data.ServiceID, ServiceName := data.ServiceName }⟩ ::
          s.DataStore.Data.entries.kerase data.ServiceID := by
      simp [saveInMemory, AList.insert_entries]
    rw [hent, List.filter_cons]
    simp only [decide_True, if_true, List.cons.injEq, true_and]
    rw [List.filter_eq_nil_iff]
    intro e he hd
    have hk : e.1 ∈ (s.DataStore.Data.entries.kerase data.ServiceID).keys :=
      List.mem_keys_of_mem he
    have hne : e.1 ≠ data.ServiceID := by
      intro heq
      rw [heq] at hk
      exact List.not_mem_keys_kerase data.ServiceID s.DataStore.Data.nodupKeys hk
    exact hne (by simpa using hd)
  · intro id hid
    rw [saveInMemory_data_lookup, if_neg hid]

end AlertServer
